import Mathlib

/-!
Verification development for the sensor-acquisition subsystem of the
sky_board_zephyr_demo firmware: the `SensorHub` driver registry
(src/subsys/platform/zephyr_sensors.cpp), the `SensorService`
scheduler/cache/persistence (sensor_service.cpp) and the two concrete
drivers (ZephyrIna226Sensor, ZephyrAht20Sensor).

The embedding is shallow: each C++ function is translated into a pure
Lean function on an explicit state; hardware and storage outcomes are
supplied by environment records (oracles).  Machine integers are
modelled as `Nat`/`Int` with explicit reductions modulo `2 ^ 32` where
the source uses `uint32_t`/`int32_t` arithmetic that can wrap.
-/

namespace SkyBoard

/-- `SensorType` is `enum class SensorType : uint8_t`; the underlying type
admits 256 distinct tags (the spec calls the enumeration extensible). -/
abbrev SensorType := Fin 256

/-- `SensorType::Ina226 = 0`. -/
def Ina226 : SensorType := 0

/-- `SensorType::Aht20 = 1`. -/
def Aht20 : SensorType := 1

/-! errno codes used by the source (newlib/Zephyr values). -/

def EINVAL : Int := 22
def ENOENT : Int := 2
def ENOSPC : Int := 28
def EALREADY : Int := 120
def EAGAIN : Int := 11
def ENODEV : Int := 19

/-- `2 ^ 32`, the modulus of `uint32_t` arithmetic. -/
def U32 : Nat := 2 ^ 32

/-- A driver as the Hub observes it through the `ISensorDriver` interface:
a type tag, a declared sample size, and oracles giving the `int` result of
the n-th `init()` / generic `read()` call the Hub makes on it (hardware
outcomes are environment-determined). -/
structure DriverSpec where
  ty : SensorType
  sampleSize : Nat
  initRet : Nat → Int
  readRet : Nat → Int

/-- One Hub slot: `struct DriverSlot { ISensorDriver *driver; bool initialized; }`,
instrumented with the number of `init()` / `read()` calls the Hub has issued
to the slot's driver (so that "init is not called again" is observable). -/
structure Slot where
  driver : DriverSpec
  initialized : Bool
  initCalls : Nat
  readCalls : Nat

/-- A freshly registered slot (`driver = &d; initialized = false`). -/
def mkSlot (d : DriverSpec) : Slot :=
  { driver := d, initialized := false, initCalls := 0, readCalls := 0 }

/-- `SensorHub::kMaxDrivers = 8U`. -/
def kMaxDrivers : Nat := 8

/-- The Hub state: the slot table `slots_[kMaxDrivers]` together with
`driver_count_`, modelled as the list of occupied slots (every stored
driver pointer is non-null, so slots are total records). -/
structure SensorHub where
  slots : List Slot

/-- `SensorHub::find_slot`: index (as `int`) of the first slot whose driver
has the given type, `-1` if none. -/
def find_slot : List Slot → SensorType → Int
  | [], _ => -1
  | s :: rest, ty =>
    if s.driver.ty = ty then 0
    else
      let r := find_slot rest ty
      if r < 0 then -1 else r + 1

/-- `SensorHub::register_driver`: `-EALREADY` if the type tag exists,
`-ENOSPC` if the table is full, else append a fresh slot. -/
def SensorHub.register_driver (h : SensorHub) (d : DriverSpec) : Int × SensorHub :=
  if 0 ≤ find_slot h.slots d.ty then (-EALREADY, h)
  else if kMaxDrivers ≤ h.slots.length then (-ENOSPC, h)
  else (0, ⟨h.slots ++ [mkSlot d]⟩)

/-- Register a list of drivers in order, collecting each call's result. -/
def registerAll : SensorHub → List DriverSpec → SensorHub × List Int
  | h, [] => (h, [])
  | h, d :: ds =>
    let p := h.register_driver d
    let q := registerAll p.2 ds
    (q.1, p.1 :: q.2)

/-- The slot update performed by a successful lazy initialization
(`slots_[i].initialized = true` after one more driver `init()` call). -/
def initSlot (s : Slot) : Slot :=
  if s.initialized then s
  else { s with initialized := true, initCalls := s.initCalls + 1 }

/-- Core of `SensorHub::init_all`: walk the slot table in order, skip
initialized slots, call the driver's `init()` on the rest; the first
failure returns immediately, leaving the remaining slots untouched. -/
def initAllGo : List Slot → Int × List Slot
  | [] => (0, [])
  | s :: rest =>
    if s.initialized then
      let p := initAllGo rest
      (p.1, s :: p.2)
    else
      let ret := s.driver.initRet s.initCalls
      if ret < 0 then (ret, { s with initCalls := s.initCalls + 1 } :: rest)
      else
        let p := initAllGo rest
        (p.1, { s with initialized := true, initCalls := s.initCalls + 1 } :: p.2)

/-- `SensorHub::init_all`. -/
def SensorHub.init_all (h : SensorHub) : Int × SensorHub :=
  let p := initAllGo h.slots
  (p.1, ⟨p.2⟩)

/-- Core of `SensorHub::init(SensorType)`: lazy single-slot initialization
applied to the first slot of the given type (`-ENOENT` if never
registered, no-op success if already initialized). -/
def initTypeGo : List Slot → SensorType → Int × List Slot
  | [], _ => (-ENOENT, [])
  | s :: rest, ty =>
    if s.driver.ty = ty then
      if s.initialized then (0, s :: rest)
      else
        let ret := s.driver.initRet s.initCalls
        if ret < 0 then (ret, { s with initCalls := s.initCalls + 1 } :: rest)
        else (0, { s with initialized := true, initCalls := s.initCalls + 1 } :: rest)
    else
      let p := initTypeGo rest ty
      (p.1, s :: p.2)

/-- `SensorHub::init(SensorType)`. -/
def SensorHub.initType (h : SensorHub) (ty : SensorType) : Int × SensorHub :=
  let p := initTypeGo h.slots ty
  (p.1, ⟨p.2⟩)

/-- Core of `SensorHub::read`: locate the slot (`-ENOENT`), check the
caller's buffer against the declared sample size (`-ENOSPC`), lazily
initialize via `init(type)` (propagating its error), then delegate to the
driver's generic `read`.  The C++ locates the slot once by `find_slot` and
`init(type)` re-finds the same first-match slot; the recursion fuses the
two identical scans. -/
def readGo : List Slot → SensorType → Nat → Int × List Slot
  | [], _, _ => (-ENOENT, [])
  | s :: rest, ty, size =>
    if s.driver.ty = ty then
      if size < s.driver.sampleSize then (-ENOSPC, s :: rest)
      else if s.initialized then
        (s.driver.readRet s.readCalls, { s with readCalls := s.readCalls + 1 } :: rest)
      else
        let ret := s.driver.initRet s.initCalls
        if ret < 0 then (ret, { s with initCalls := s.initCalls + 1 } :: rest)
        else
          ({ s with initCalls := s.initCalls + 1 }.driver.readRet s.readCalls,
           { s with initialized := true, initCalls := s.initCalls + 1,
                    readCalls := s.readCalls + 1 } :: rest)
    else
      let p := readGo rest ty size
      (p.1, s :: p.2)

/-- `SensorHub::read(type, out, out_size)`; `outNull` models `out == nullptr`
(the caller's buffer itself is opaque to the Hub). -/
def SensorHub.read (h : SensorHub) (ty : SensorType) (outNull : Bool) (size : Nat) :
    Int × SensorHub :=
  if outNull then (-EINVAL, h)
  else
    let p := readGo h.slots ty size
    (p.1, ⟨p.2⟩)

/-- The Hub's registered type tags, in slot order. -/
def SensorHub.types (h : SensorHub) : List SensorType :=
  h.slots.map (fun s => s.driver.ty)

/-! ## SensorService: cache and sampling (sensor_service.cpp) -/

/-- `SensorService::kMaxSampleBytes = 64`. -/
def kMaxSampleBytes : Nat := 64

/-- `SensorService::kSamplePeriodMs = 1000`. -/
def kSamplePeriodMs : Int := 1000

/-- `SensorService::kLogPeriodMs = 5000`. -/
def kLogPeriodMs : Int := 5000

/-- Modelled from the spec: `kPersistPeriodMs` is declared in the
sensor-service header, which is not among the sources; the spec fixes only
that the persistence period is coarser than the 5 s log period.  The
claims use the constant only symbolically ("advance by `P_persist`"). -/
def kPersistPeriodMs : Int := 30000

/-- `SensorService::SampleCacheEntry`: type tag, declared sample size,
validity flag, the 64-byte sample buffer (a byte list), and the
`uint32_t` consecutive-failure counter. -/
structure CacheEntry where
  ty : SensorType
  sample_size : Nat
  valid : Bool
  data : List Nat
  error_streak : Nat

/-- Outcome of one `Hub.read` into a cache entry's buffer, as the worker
loop observes it: success deposits the fresh `sample_size` bytes in the
buffer; failure returns a negative code and leaves the buffer unchanged
(both in-repo drivers, `ZephyrIna226Sensor::read` and
`ZephyrAht20Sensor::read`, write the output sample only after every
acquisition step has succeeded — the property proved for claim C10). -/
inductive ReadOutcome where
  | ok (bytes : List Nat)
  | err (code : Int)

/-- One iteration of the worker loop's per-entry body (sensor_service.cpp,
`SensorService::threads`): on success mark valid and reset the failure
counter; on failure increment the counter (mod `2 ^ 32`, it is a
`uint32_t`) and report whether the throttled error log fires
(`streak == 1 || streak % 10 == 0`). -/
def sampleStep (e : CacheEntry) (o : ReadOutcome) : CacheEntry × Bool :=
  match o with
  | .ok bytes =>
    ({ e with data := bytes.take e.sample_size ++ e.data.drop e.sample_size,
              valid := true, error_streak := 0 }, false)
  | .err _ =>
    let streak := (e.error_streak + 1) % U32
    ({ e with error_streak := streak }, streak == 1 || streak % 10 == 0)

/-- Iterate `sampleStep` over a sequence of read outcomes. -/
def sampleSteps (e : CacheEntry) (os : List ReadOutcome) : CacheEntry :=
  os.foldl (fun acc o => (sampleStep acc o).1) e

/-- One sampling round over the cache table: entry `i` receives the `i`-th
outcome (the worker calls `Hub.read` once per entry, in order). -/
def sampleRound : List CacheEntry → List ReadOutcome → List CacheEntry
  | [], _ => []
  | es, [] => es
  | e :: es, o :: os => (sampleStep e o).1 :: sampleRound es os

/-- `SensorService::get_latest(type, out, out_size)`: under the lock,
locate the entry by `find_cache_index` (first match), fail `-ENOENT` /
`-EAGAIN` / `-ENOSPC` before any copy, else copy the cached
`sample_size` bytes into the caller's buffer.  The caller's buffer is the
list `out` (its length is `out_size`); `outNull` models `out == nullptr`.
The function takes no Hub or driver input: it can only read the cache. -/
def get_latest (cache : List CacheEntry) (ty : SensorType) (outNull : Bool)
    (out : List Nat) : Int × List Nat :=
  if outNull then (-EINVAL, out)
  else
    match cache.find? (fun e => e.ty == ty) with
    | none => (-ENOENT, out)
    | some e =>
      if e.valid = false then (-EAGAIN, out)
      else if out.length < e.sample_size then (-ENOSPC, out)
      else (0, e.data.take e.sample_size ++ out.drop e.sample_size)

/-! ## Sample structs and their in-memory layout

`platform::Ina226Sample` is three `int32_t` fields then an 8-aligned
`int64_t`, so `sizeof = 24` with padding at offset 12; `platform::Aht20Sample`
is two `int32_t` then the `int64_t`, so `sizeof = 16` (ARM EABI, little
endian).  The service treats cached samples as byte blobs and decodes them
by `memcpy`; the decoders below read that layout. -/

structure Ina226Sample where
  bus_mv : Int
  current_ma : Int
  power_mw : Int
  ts_ms : Int
deriving DecidableEq

structure Aht20Sample where
  temp_mc : Int
  rh_mpermille : Int
  ts_ms : Int
deriving DecidableEq

def sizeofIna226Sample : Nat := 24

def sizeofAht20Sample : Nat := 16

/-- Little-endian value of a byte list (each byte reduced mod 256). -/
def leNat : List Nat → Nat
  | [] => 0
  | b :: bs => b % 256 + 256 * leNat bs

/-- Reinterpret a machine word as a signed 32-bit value. -/
def toInt32 (n : Nat) : Int :=
  if n % 2 ^ 32 < 2 ^ 31 then ((n % 2 ^ 32 : Nat) : Int)
  else ((n % 2 ^ 32 : Nat) : Int) - 2 ^ 32

/-- Reinterpret a machine word as a signed 64-bit value. -/
def toInt64 (n : Nat) : Int :=
  if n % 2 ^ 64 < 2 ^ 63 then ((n % 2 ^ 64 : Nat) : Int)
  else ((n % 2 ^ 64 : Nat) : Int) - 2 ^ 64

/-- `memcpy(&ina, sample, sizeof(ina))` on the layout above. -/
def decodeIna226 (d : List Nat) : Ina226Sample :=
  { bus_mv := toInt32 (leNat (d.take 4))
    current_ma := toInt32 (leNat ((d.drop 4).take 4))
    power_mw := toInt32 (leNat ((d.drop 8).take 4))
    ts_ms := toInt64 (leNat ((d.drop 16).take 8)) }

/-- `memcpy(&aht, sample, sizeof(aht))` on the layout above. -/
def decodeAht20 (d : List Nat) : Aht20Sample :=
  { temp_mc := toInt32 (leNat (d.take 4))
    rh_mpermille := toInt32 (leNat ((d.drop 4).take 4))
    ts_ms := toInt64 (leNat ((d.drop 8).take 8)) }

/-- The sample-extraction loop of `persist_snapshot_to_storage`
(lines 260-283): scan the cache; a valid INA226 entry with a large enough
sample overwrites the INA226 candidate, a valid AHT20 entry the AHT20
candidate; other entries are ignored. -/
def extractSamples (cache : List CacheEntry) :
    Option Ina226Sample × Option Aht20Sample :=
  cache.foldl
    (fun acc e =>
      if e.valid = false then acc
      else if e.ty = Ina226 ∧ sizeofIna226Sample ≤ e.sample_size then
        (some (decodeIna226 e.data), acc.2)
      else if e.ty = Aht20 ∧ sizeofAht20Sample ≤ e.sample_size then
        (acc.1, some (decodeAht20 e.data))
      else acc)
    (none, none)

/-! ## RTC time, CSV formatting and persistence -/

/-- `struct rtc_time` fields used by the service. -/
structure RtcTime where
  tm_year : Int
  tm_mon : Int
  tm_mday : Int
  tm_hour : Int
  tm_min : Int
  tm_sec : Int

/-- Left-pad a digit string with zeros to width `w`. -/
def padZeros (w : Nat) (s : String) : String :=
  String.mk (List.replicate (w - s.length) '0') ++ s

/-- `snprintf` conversion `%0wd`. -/
def fmt0 (w : Nat) (v : Int) : String :=
  if v < 0 then "-" ++ padZeros (w - 1) (toString v.natAbs)
  else padZeros w (toString v.natAbs)

/-- The row's time column: `"%04d-%02d-%02d %02d:%02d:%02d"` into an
80-byte buffer (truncated to 79 characters, as snprintf would). -/
def beijingTimeString (t : RtcTime) : String :=
  (fmt0 4 (t.tm_year + 1900) ++ "-" ++ fmt0 2 (t.tm_mon + 1) ++ "-" ++
    fmt0 2 t.tm_mday ++ " " ++ fmt0 2 t.tm_hour ++ ":" ++ fmt0 2 t.tm_min ++
    ":" ++ fmt0 2 t.tm_sec).take 79

/-- The CSV header constant `kHeader` of `persist_snapshot_to_storage`. -/
def kCsvHeader : String :=
  "beijing_time,bus_mv,current_ma,power_mw,temp_mc,rh_mpermille\n"

/-- One CSV data row (lines 329-338): the time column, then `bus_mv`,
`current_ma`, `power_mw`, `temp_mc`, `rh_mpermille`, comma separated and
newline terminated; a field whose sample is absent is the sentinel `-1`. -/
def renderRow (time : String) (inaO : Option Ina226Sample)
    (ahtO : Option Aht20Sample) : String :=
  let bus_mv : Int := match inaO with | some s => s.bus_mv | none => -1
  let current_ma : Int := match inaO with | some s => s.current_ma | none => -1
  let power_mw : Int := match inaO with | some s => s.power_mw | none => -1
  let temp_mc : Int := match ahtO with | some s => s.temp_mc | none => -1
  let rh_mpermille : Int := match ahtO with | some s => s.rh_mpermille | none => -1
  time ++ "," ++ toString bus_mv ++ "," ++ toString current_ma ++ "," ++
    toString power_mw ++ "," ++ toString temp_mc ++ "," ++
    toString rh_mpermille ++ "\n"

/-- The `/SD:/YYYYMMDD_HHMMSS_sensor.csv` path built once per `run()`
(`build_persist_file_path_from_rtc`). -/
def build_persist_file_path (t : RtcTime) : String :=
  "/SD:/" ++ fmt0 4 (t.tm_year + 1900) ++ fmt0 2 (t.tm_mon + 1) ++
    fmt0 2 t.tm_mday ++ "_" ++ fmt0 2 t.tm_hour ++ fmt0 2 t.tm_min ++
    fmt0 2 t.tm_sec ++ "_sensor.csv"

/-- The service's persistence fields (`storage_persist_enabled_`,
`storage_header_written_`, `storage_error_streak_` (a `uint32_t`),
`persist_file_path_`). -/
structure PersistState where
  storage_persist_enabled : Bool
  storage_header_written : Bool
  storage_error_streak : Nat
  persist_file_path : String

/-- One call `IStorage::write_file(path, data, len, append)` as the
service issues it. -/
structure WriteOp where
  path : String
  data : String
  append : Bool
deriving DecidableEq

/-- Environment of one persistence round: the RTC read result, and the
storage results for the header write and the row write (consulted only if
the corresponding write is attempted). -/
structure PersistEnv where
  rtcRet : Int
  rtc : RtcTime
  headerRet : Int
  rowRet : Int

/-- `SensorService::persist_snapshot_to_storage`: returns the updated
persistence state and the storage writes attempted, in order.  Mirrors
the source: disabled short-circuit; extraction; nothing-valid
short-circuit; empty-path latch; header write on first use (a failure
latches persistence off); RTC read (a failure skips the row but keeps
persistence enabled); row formatting with its `snprintf` length check; row
write (a failure latches persistence off); success resets the storage
error streak. -/
def persist_snapshot_to_storage (cache : List CacheEntry) (st : PersistState)
    (env : PersistEnv) : PersistState × List WriteOp :=
  if st.storage_persist_enabled = false then (st, [])
  else
    let ex := extractSamples cache
    if ex.1 = none ∧ ex.2 = none then (st, [])
    else if st.persist_file_path = "" then
      ({ st with storage_persist_enabled := false }, [])
    else
      let headerOps : List WriteOp :=
        if st.storage_header_written then []
        else [⟨st.persist_file_path, kCsvHeader, false⟩]
      if st.storage_header_written = false ∧ env.headerRet < 0 then
        ({ st with storage_error_streak := (st.storage_error_streak + 1) % U32,
                   storage_persist_enabled := false }, headerOps)
      else
        let st1 := { st with storage_header_written := true }
        if env.rtcRet < 0 then
          ({ st1 with storage_error_streak := (st1.storage_error_streak + 1) % U32 },
           headerOps)
        else
          let row := renderRow (beijingTimeString env.rtc) ex.1 ex.2
          if row.length = 0 ∨ 200 ≤ row.length then (st1, headerOps)
          else
            let ops := headerOps ++ [⟨st.persist_file_path, row, true⟩]
            if env.rowRet < 0 then
              ({ st1 with
                   storage_error_streak := (st1.storage_error_streak + 1) % U32,
                   storage_persist_enabled := false }, ops)
            else ({ st1 with storage_error_streak := 0 }, ops)

/-- The scheduler state one worker iteration touches (next-deadline fields
and the persistence state; the cache table is passed alongside). -/
structure SvcState where
  cache : List CacheEntry
  persist : PersistState
  next_log_ms : Int
  next_persist_ms : Int

/-- Environment of one worker-loop iteration: one read outcome per cache
entry, the uptime `loop_now_ms` sampled after the reads, and the
persistence-round environment. -/
structure RoundEnv where
  reads : List ReadOutcome
  now_ms : Int
  penv : PersistEnv

/-- `SensorService::maybe_persist_snapshot(now_ms)`: below the deadline do
nothing; otherwise run persistence and set the deadline to
`now_ms + kPersistPeriodMs` regardless of the outcome. -/
def maybe_persist_snapshot (cache : List CacheEntry) (st : PersistState)
    (next_persist_ms : Int) (now_ms : Int) (env : PersistEnv) :
    (PersistState × Int) × List WriteOp :=
  if now_ms < next_persist_ms then ((st, next_persist_ms), [])
  else
    let p := persist_snapshot_to_storage cache st env
    ((p.1, now_ms + kPersistPeriodMs), p.2)

/-- One iteration of the worker loop (`SensorService::threads`): sample
every cache entry, then `maybe_log_snapshot` (which only reads the cache
and advances `next_log_ms_`), then `maybe_persist_snapshot`. -/
def serviceRound (s : SvcState) (env : RoundEnv) : SvcState × List WriteOp :=
  let cache' := sampleRound s.cache env.reads
  let next_log' :=
    if env.now_ms < s.next_log_ms then s.next_log_ms
    else env.now_ms + kLogPeriodMs
  let p := maybe_persist_snapshot cache' s.persist s.next_persist_ms env.now_ms env.penv
  ({ cache := cache', persist := p.1.1, next_log_ms := next_log',
     next_persist_ms := p.1.2 }, p.2)

/-- Iterated worker loop: the states after each round. -/
def serviceTrace (s : SvcState) : List RoundEnv → List (SvcState × List WriteOp)
  | [] => []
  | env :: rest =>
    let p := serviceRound s env
    p :: serviceTrace p.1 rest

/-- All storage writes a run attempts, in order. -/
def traceOps (s : SvcState) : List RoundEnv → List WriteOp
  | [] => []
  | env :: rest =>
    let p := serviceRound s env
    p.2 ++ traceOps p.1 rest

/-- The persistence-state reset performed by `SensorService::run()`
(lines 397-410): re-enable persistence, forget the header, clear the
streak, then resolve the file path from the RTC (an RTC failure aborts
`run()` with the path still empty). -/
def run_persist_reset (rtcRet : Int) (t : RtcTime) : PersistState :=
  let st : PersistState :=
    { storage_persist_enabled := true, storage_header_written := false,
      storage_error_streak := 0, persist_file_path := "" }
  if rtcRet < 0 then st
  else { st with persist_file_path := build_persist_file_path t }

/-! ## Concrete drivers (zephyr_sensors.cpp) -/

/-- Zephyr's `struct sensor_value` (two `int32_t` fields). -/
structure SensorValue where
  val1 : Int
  val2 : Int

/-- Reinterpret an `int64_t` expression as `int32_t` (the value reduced
into `[-2 ^ 31, 2 ^ 31)`). -/
def wrap32 (n : Int) : Int := (n + 2 ^ 31) % 2 ^ 32 - 2 ^ 31

/-- `to_milli`: `(int32_t)((int64_t)v.val1 * 1000 + v.val2 / 1000)`;
C integer division truncates toward zero (`Int.tdiv`). -/
def to_milli (v : SensorValue) : Int :=
  wrap32 (v.val1 * 1000 + Int.tdiv v.val2 1000)

/-- `humidity_percent_to_permille`:
`(int32_t)((int64_t)v.val1 * 10 + v.val2 / 100000)`. -/
def humidity_percent_to_permille (v : SensorValue) : Int :=
  wrap32 (v.val1 * 10 + Int.tdiv v.val2 100000)

/-- Hardware environment of one `ZephyrIna226Sensor::read` call:
device readiness (`dev_ != nullptr && device_is_ready(dev_)`), the
return codes of `sensor_sample_fetch` and the three `sensor_channel_get`
calls, the channel values, and `k_uptime_get()`. -/
structure Ina226Env where
  devReady : Bool
  fetchRet : Int
  vbusRet : Int
  currentRet : Int
  powerRet : Int
  vbus : SensorValue
  current : SensorValue
  power : SensorValue
  uptime : Int

/-- `ZephyrIna226Sensor::read(Ina226Sample&)` with `ready` the driver's
`ready_` flag: init, fetch, three channel gets, and only then the
assignment of all output fields.  Returns the code, the new `ready_`
flag and the caller's sample. -/
def ina226_read (ready : Bool) (env : Ina226Env) (out : Ina226Sample) :
    Int × Bool × Ina226Sample :=
  let initRet : Int := if ready then 0 else if env.devReady = false then -ENODEV else 0
  let ready' : Bool := if ready then ready else if env.devReady = false then ready else true
  if initRet < 0 then (initRet, ready', out)
  else if env.fetchRet < 0 then (env.fetchRet, ready', out)
  else if env.vbusRet < 0 then (env.vbusRet, ready', out)
  else if env.currentRet < 0 then (env.currentRet, ready', out)
  else if env.powerRet < 0 then (env.powerRet, ready', out)
  else
    (0, ready',
     { bus_mv := to_milli env.vbus, current_ma := to_milli env.current,
       power_mw := to_milli env.power, ts_ms := env.uptime })

/-- `ZephyrIna226Sensor::read(void*, size_t)`: null and size validation in
front of the typed read. -/
def ina226_read_generic (ready : Bool) (env : Ina226Env) (outNull : Bool)
    (out_size : Nat) (out : Ina226Sample) : Int × Bool × Ina226Sample :=
  if outNull then (-EINVAL, ready, out)
  else if out_size < sizeofIna226Sample then (-ENOSPC, ready, out)
  else ina226_read ready env out

/-- Hardware environment of one `ZephyrAht20Sensor::read` call. -/
structure Aht20Env where
  devReady : Bool
  fetchRet : Int
  tempRet : Int
  humidityRet : Int
  temp : SensorValue
  humidity : SensorValue
  uptime : Int

/-- `ZephyrAht20Sensor::read(Aht20Sample&)`. -/
def aht20_read (ready : Bool) (env : Aht20Env) (out : Aht20Sample) :
    Int × Bool × Aht20Sample :=
  let initRet : Int := if ready then 0 else if env.devReady = false then -ENODEV else 0
  let ready' : Bool := if ready then ready else if env.devReady = false then ready else true
  if initRet < 0 then (initRet, ready', out)
  else if env.fetchRet < 0 then (env.fetchRet, ready', out)
  else if env.tempRet < 0 then (env.tempRet, ready', out)
  else if env.humidityRet < 0 then (env.humidityRet, ready', out)
  else
    (0, ready',
     { temp_mc := to_milli env.temp,
       rh_mpermille := humidity_percent_to_permille env.humidity,
       ts_ms := env.uptime })

/-- `ZephyrAht20Sensor::read(void*, size_t)`. -/
def aht20_read_generic (ready : Bool) (env : Aht20Env) (outNull : Bool)
    (out_size : Nat) (out : Aht20Sample) : Int × Bool × Aht20Sample :=
  if outNull then (-EINVAL, ready, out)
  else if out_size < sizeofAht20Sample then (-ENOSPC, ready, out)
  else aht20_read ready env out

/-! ## Helper lemmas -/

theorem find?_append_first {α : Type} (p : α → Bool) (pre : List α) (e : α)
    (post : List α) (hpre : ∀ x ∈ pre, p x = false) (he : p e = true) :
    (pre ++ e :: post).find? p = some e := by
  induction pre with
  | nil => simp [List.find?_cons, he]
  | cons a as ih =>
    have ha : p a = false := hpre a (by simp)
    simp only [List.cons_append, List.find?_cons, ha]
    exact ih (fun x hx => hpre x (by simp [hx]))

theorem get_latest_entry (pre : List CacheEntry) (e : CacheEntry)
    (post : List CacheEntry) (ty : SensorType) (out : List Nat)
    (hpre : ∀ x ∈ pre, x.ty ≠ ty) (hty : e.ty = ty) :
    (e.valid = false →
      get_latest (pre ++ e :: post) ty false out = (-EAGAIN, out)) ∧
    (e.valid = true → out.length < e.sample_size →
      get_latest (pre ++ e :: post) ty false out = (-ENOSPC, out)) ∧
    (e.valid = true → e.sample_size ≤ out.length →
      get_latest (pre ++ e :: post) ty false out =
        (0, e.data.take e.sample_size ++ out.drop e.sample_size)) := by
  have hfind : (pre ++ e :: post).find? (fun x => x.ty == ty) = some e := by
    refine find?_append_first _ pre e post (fun x hx => ?_) (by simp [hty])
    simpa using hpre x hx
  refine ⟨?_, ?_, ?_⟩
  · intro hv; simp [get_latest, hfind, hv]
  · intro hv hsz; simp [get_latest, hfind, hv, hsz]
  · intro hv hsz
    simp [get_latest, hfind, hv, Nat.not_lt.mpr hsz]

theorem CacheEntry.eq_of_fields {a b : CacheEntry} (h1 : a.ty = b.ty)
    (h2 : a.sample_size = b.sample_size) (h3 : a.valid = b.valid)
    (h4 : a.data = b.data) (h5 : a.error_streak = b.error_streak) : a = b := by
  cases a; cases b; simp_all

theorem sampleStep_err_fields (e : CacheEntry) (c : Int) :
    ((sampleStep e (.err c)).1.ty = e.ty ∧
      (sampleStep e (.err c)).1.sample_size = e.sample_size) ∧
    (sampleStep e (.err c)).1.valid = e.valid ∧
    (sampleStep e (.err c)).1.data = e.data := by
  simp [sampleStep]

theorem sampleSteps_err_fields (codes : List Int) (e : CacheEntry) :
    ((sampleSteps e (codes.map ReadOutcome.err)).ty = e.ty ∧
      (sampleSteps e (codes.map ReadOutcome.err)).sample_size = e.sample_size) ∧
    (sampleSteps e (codes.map ReadOutcome.err)).valid = e.valid ∧
    (sampleSteps e (codes.map ReadOutcome.err)).data = e.data := by
  induction codes generalizing e with
  | nil => simp [sampleSteps]
  | cons c cs ih =>
    have hstep :
        sampleSteps e ((c :: cs).map ReadOutcome.err) =
          sampleSteps (sampleStep e (.err c)).1 (cs.map ReadOutcome.err) := by
      simp [sampleSteps]
    rw [hstep]
    rcases ih (sampleStep e (.err c)).1 with ⟨⟨h1, h2⟩, h3, h4⟩
    rcases sampleStep_err_fields e c with ⟨⟨g1, g2⟩, g3, g4⟩
    exact ⟨⟨h1.trans g1, h2.trans g2⟩, h3.trans g3, h4.trans g4⟩

theorem sampleStep_err_snd (e : CacheEntry) (c : Int) :
    (sampleStep e (.err c)).2 =
      ((e.error_streak + 1) % U32 == 1 || ((e.error_streak + 1) % U32) % 10 == 0) :=
  rfl

theorem sampleSteps_err_streak (codes : List Int) (e : CacheEntry)
    (h : e.error_streak < U32) :
    (sampleSteps e (codes.map ReadOutcome.err)).error_streak =
      (e.error_streak + codes.length) % U32 := by
  induction codes generalizing e with
  | nil => simp [sampleSteps, Nat.mod_eq_of_lt h]
  | cons c cs ih =>
    have hstep :
        sampleSteps e ((c :: cs).map ReadOutcome.err) =
          sampleSteps (sampleStep e (.err c)).1 (cs.map ReadOutcome.err) := by
      simp [sampleSteps]
    have hU : 0 < U32 := by decide
    have h1 : (sampleStep e (.err c)).1.error_streak = (e.error_streak + 1) % U32 := by
      simp [sampleStep]
    rw [hstep, ih _ (by rw [h1]; exact Nat.mod_lt _ hU), h1, Nat.mod_add_mod,
      List.length_cons]
    congr 1
    omega

theorem ina226_read_err_unchanged (r : Bool) (env : Ina226Env) (o : Ina226Sample)
    (h : (ina226_read r env o).1 < 0) : (ina226_read r env o).2.2 = o := by
  simp only [ina226_read] at h ⊢
  split_ifs at h ⊢ <;> simp_all

theorem aht20_read_err_unchanged (r : Bool) (env : Aht20Env) (o : Aht20Sample)
    (h : (aht20_read r env o).1 < 0) : (aht20_read r env o).2.2 = o := by
  simp only [aht20_read] at h ⊢
  split_ifs at h ⊢ <;> simp_all

theorem find_slot_neg_iff (l : List Slot) (ty : SensorType) :
    find_slot l ty < 0 ↔ ∀ s ∈ l, s.driver.ty ≠ ty := by
  induction l with
  | nil => simp [find_slot]
  | cons s rest ih =>
    rw [find_slot]
    by_cases hs : s.driver.ty = ty
    · rw [if_pos hs]
      simp [hs]
    · rw [if_neg hs]
      show (if find_slot rest ty < 0 then (-1 : Int) else find_slot rest ty + 1) < 0 ↔ _
      by_cases hr : find_slot rest ty < 0
      · rw [if_pos hr]
        simp only [List.mem_cons, forall_eq_or_imp]
        constructor
        · intro _; exact ⟨hs, ih.mp hr⟩
        · intro _; decide
      · rw [if_neg hr]
        simp only [List.mem_cons, forall_eq_or_imp]
        constructor
        · intro hc; exact absurd hc (by omega)
        · intro hall; exact absurd (ih.mpr hall.2) hr

theorem register_driver_new (h : SensorHub) (d : DriverSpec)
    (hfresh : ∀ s ∈ h.slots, s.driver.ty ≠ d.ty) :
    h.register_driver d =
      if kMaxDrivers ≤ h.slots.length then (-ENOSPC, h)
      else (0, ⟨h.slots ++ [mkSlot d]⟩) := by
  have hneg : find_slot h.slots d.ty < 0 := (find_slot_neg_iff _ _).mpr hfresh
  rw [SensorHub.register_driver, if_neg (by omega)]

theorem registerAll_fresh (ds : List DriverSpec) :
    ∀ (h : SensorHub),
      (∀ d ∈ ds, ∀ s ∈ h.slots, s.driver.ty ≠ d.ty) →
      (ds.map DriverSpec.ty).Nodup →
      h.slots.length + ds.length ≤ kMaxDrivers →
      registerAll h ds =
        (⟨h.slots ++ ds.map mkSlot⟩, List.replicate ds.length 0) := by
  induction ds with
  | nil => intro h _ _ _; simp [registerAll]
  | cons d ds ih =>
    intro h hfresh hnd hlen
    have hstep : h.register_driver d = (0, ⟨h.slots ++ [mkSlot d]⟩) := by
      rw [register_driver_new h d (hfresh d (by simp)),
        if_neg (by simp only [List.length_cons] at hlen; omega)]
    have hfresh' : ∀ d2 ∈ ds, ∀ s ∈ h.slots ++ [mkSlot d], s.driver.ty ≠ d2.ty := by
      intro d2 hd2 s hs
      rcases List.mem_append.mp hs with hs | hs
      · exact hfresh d2 (by simp [hd2]) s hs
      · have hsd : s = mkSlot d := by simpa using hs
        subst hsd
        have : d.ty ∉ ds.map DriverSpec.ty := by
          simp only [List.map_cons, List.nodup_cons] at hnd
          exact hnd.1
        intro hcon
        exact this (by rw [mkSlot] at hcon; exact hcon ▸ List.mem_map_of_mem _ hd2)
    have hnd' : (ds.map DriverSpec.ty).Nodup := by
      simp only [List.map_cons, List.nodup_cons] at hnd
      exact hnd.2
    have hrec := ih ⟨h.slots ++ [mkSlot d]⟩ hfresh' hnd'
      (by simp only [List.length_append, List.length_cons, List.length_nil] at *; omega)
    simp only [registerAll, hstep, hrec, List.map_cons, List.length_cons,
      List.replicate_succ, List.append_assoc, List.singleton_append]

theorem registerAll_append (l1 l2 : List DriverSpec) :
    ∀ (h : SensorHub),
      registerAll h (l1 ++ l2) =
        ((registerAll (registerAll h l1).1 l2).1,
          (registerAll h l1).2 ++ (registerAll (registerAll h l1).1 l2).2) := by
  induction l1 with
  | nil => intro h; simp [registerAll]
  | cons d ds ih =>
    intro h
    simp only [List.cons_append, registerAll, List.append_eq, ih]

/-! ## Claims -/

/-- C10: for both concrete drivers (INA226, AHT20), every generic `read`
call with a valid buffer of sufficient size that returns an error —
device not ready, sample-fetch failure, or any channel-get failure —
leaves the caller's output sample entirely unchanged: the fields and the
timestamp are assigned only after every acquisition step has succeeded. -/
theorem c10_driver_read_no_partial_write :
    ∀ (r1 : Bool) (e1 : Ina226Env) (o1 : Ina226Sample) (n1 : Nat),
      sizeofIna226Sample ≤ n1 →
      ∀ (r2 : Bool) (e2 : Aht20Env) (o2 : Aht20Sample) (n2 : Nat),
        sizeofAht20Sample ≤ n2 →
        ((ina226_read_generic r1 e1 false n1 o1).1 < 0 →
          (ina226_read_generic r1 e1 false n1 o1).2.2 = o1) ∧
        ((aht20_read_generic r2 e2 false n2 o2).1 < 0 →
          (aht20_read_generic r2 e2 false n2 o2).2.2 = o2) := by
  intro r1 e1 o1 n1 h1 r2 e2 o2 n2 h2
  have hsz1 : ¬ (n1 < sizeofIna226Sample) := Nat.not_lt.mpr h1
  have hsz2 : ¬ (n2 < sizeofAht20Sample) := Nat.not_lt.mpr h2
  constructor
  · intro herr
    simp only [ina226_read_generic, Bool.false_eq_true, if_false, if_neg hsz1]
      at herr ⊢
    exact ina226_read_err_unchanged r1 e1 o1 herr
  · intro herr
    simp only [aht20_read_generic, Bool.false_eq_true, if_false, if_neg hsz2]
      at herr ⊢
    exact aht20_read_err_unchanged r2 e2 o2 herr

/-- Witness for C10: with the device not ready, the INA226 read fails with
`-ENODEV` and returns the caller's sample untouched. -/
theorem c10_witness :
    sizeofIna226Sample ≤ 24 ∧ sizeofAht20Sample ≤ 16 ∧
    (ina226_read_generic false ⟨false, 0, 0, 0, 0, ⟨0, 0⟩, ⟨0, 0⟩, ⟨0, 0⟩, 7⟩
        false 24 ⟨1, 2, 3, 4⟩).2.2 = ⟨1, 2, 3, 4⟩ := by
  refine ⟨le_refl _, le_refl _, ?_⟩
  exact (c10_driver_read_no_partial_write false _ ⟨1, 2, 3, 4⟩ 24 (le_refl _)
    false ⟨false, 0, 0, 0, ⟨0, 0⟩, ⟨0, 0⟩, 7⟩ ⟨0, 0, 0⟩ 16 (le_refl _)).1 (by decide)

/-- C5: `get_latest(type, out, out_size)` returns `-ENOENT` when no cache
entry has the type, `-EAGAIN` when the entry was never valid, `-ENOSPC`
when the buffer is smaller than the entry's sample size, and otherwise
copies exactly the cached `sample_size` bytes; on every error return the
caller's buffer is unchanged.  The function's only input is the cache, so
it cannot invoke a driver read. -/
theorem c5_get_latest_spec :
    ∀ (cache : List CacheEntry) (ty : SensorType) (out : List Nat),
      ((∀ e ∈ cache, e.ty ≠ ty) → get_latest cache ty false out = (-ENOENT, out)) ∧
      (∀ (pre : List CacheEntry) (e : CacheEntry) (post : List CacheEntry),
        cache = pre ++ e :: post → (∀ x ∈ pre, x.ty ≠ ty) → e.ty = ty →
          (e.valid = false → get_latest cache ty false out = (-EAGAIN, out)) ∧
          (e.valid = true → out.length < e.sample_size →
            get_latest cache ty false out = (-ENOSPC, out)) ∧
          (e.valid = true → e.sample_size ≤ out.length →
            get_latest cache ty false out =
              (0, e.data.take e.sample_size ++ out.drop e.sample_size))) ∧
      (∀ (r : Int) (res : List Nat),
        get_latest cache ty false out = (r, res) → r ≠ 0 → res = out) := by
  intro cache ty out
  refine ⟨?_, ?_, ?_⟩
  · intro hnone
    have hfind : cache.find? (fun e => e.ty == ty) = none := by
      rw [List.find?_eq_none]
      intro e he
      simpa using hnone e he
    simp [get_latest, hfind]
  · intro pre e post hc hpre hty
    rw [hc]
    exact get_latest_entry pre e post ty out hpre hty
  · intro r res heq hr
    by_cases hfind : ∃ e, cache.find? (fun e => e.ty == ty) = some e
    · obtain ⟨e, he⟩ := hfind
      simp only [get_latest, Bool.false_eq_true, if_false, he] at heq
      split_ifs at heq <;> simp_all
    · have : cache.find? (fun e => e.ty == ty) = none := by
        cases h : cache.find? (fun e => e.ty == ty) with
        | none => rfl
        | some e => exact absurd ⟨e, h⟩ hfind
      simp only [get_latest, Bool.false_eq_true, if_false, this] at heq
      exact (Prod.mk.injEq _ _ _ _ ▸ heq).2.symm ▸ rfl

/-- Witness for C5: a one-entry cache with a valid 2-byte sample copied
into a 3-byte buffer. -/
theorem c5_witness :
    get_latest [⟨Ina226, 2, true, [170, 171], 0⟩] Ina226 false [9, 9, 9] =
      (0, [170, 171, 9]) := by
  have h := ((c5_get_latest_spec [⟨Ina226, 2, true, [170, 171], 0⟩] Ina226
      [9, 9, 9]).2.1 [] ⟨Ina226, 2, true, [170, 171], 0⟩ [] rfl
      (by intro x hx; cases hx) rfl).2.2 rfl (by decide)
  simpa using h

/-- C1: cache-entry validity is monotonic within a run.  After one
successful read the entry is valid, and any number of later failed reads
(which leave the buffer untouched, see C10) keep it valid with the same
cached bytes, so `get_latest` still returns the bytes deposited by the
earlier success. -/
theorem c1_cache_validity_monotonic :
    ∀ (pre post : List CacheEntry) (e : CacheEntry) (bytes : List Nat)
      (codes : List Int) (out : List Nat),
      (∀ x ∈ pre, x.ty ≠ e.ty) →
      ((sampleStep e (.ok bytes)).1.valid = true ∧
        sampleSteps (sampleStep e (.ok bytes)).1 (codes.map ReadOutcome.err) =
          { (sampleStep e (.ok bytes)).1 with
              error_streak :=
                (sampleSteps (sampleStep e (.ok bytes)).1
                    (codes.map ReadOutcome.err)).error_streak }) ∧
      (e.sample_size ≤ out.length →
        get_latest
            (pre ++ sampleSteps (sampleStep e (.ok bytes)).1
              (codes.map ReadOutcome.err) :: post) e.ty false out =
          (0, (sampleStep e (.ok bytes)).1.data.take e.sample_size ++
              out.drop e.sample_size)) := by
  intro pre post e bytes codes out hpre
  set e1 := (sampleStep e (.ok bytes)).1 with he1
  set e2 := sampleSteps e1 (codes.map ReadOutcome.err) with he2
  obtain ⟨⟨hty, hsz⟩, hvalid, hdata⟩ := sampleSteps_err_fields codes e1
  have h1ty : e1.ty = e.ty := by simp [he1, sampleStep]
  have h1sz : e1.sample_size = e.sample_size := by simp [he1, sampleStep]
  have h1valid : e1.valid = true := by simp [he1, sampleStep]
  refine ⟨⟨h1valid, ?_⟩, ?_⟩
  · exact CacheEntry.eq_of_fields hty hsz hvalid hdata rfl
  · intro hout
    have h := (get_latest_entry pre e2 post e.ty out hpre (hty.trans h1ty)).2.2
        (hvalid.trans h1valid)
        (by rw [hsz, h1sz]; exact hout)
    rw [h, hdata, hsz, h1sz]

/-- Witness for C1: one success (bytes `0xAA 0xAB`) followed by five
failures still serves the bytes of the success. -/
theorem c1_witness :
    get_latest
        [sampleSteps (sampleStep ⟨Ina226, 2, false, [0, 0], 0⟩
            (.ok [170, 171])).1
          ([-5, -5, -5, -5, -5].map ReadOutcome.err)] Ina226 false [9, 9, 9] =
      (0, [170, 171, 9]) := by
  have h := (c1_cache_validity_monotonic [] [] ⟨Ina226, 2, false, [0, 0], 0⟩
      [170, 171] [-5, -5, -5, -5, -5] [9, 9, 9]
      (by intro x hx; cases hx)).2 (by decide)
  simpa [sampleStep] using h

/-- C8 (amended): starting from a zero consecutive-failure counter, the
error sink fires on the k-th consecutive failure exactly when `k = 1` or
`k` is a multiple of 10 — for every ordinal `k` below `2 ^ 32`; the
`uint32_t` counter wraps at `2 ^ 32` (see the counterexample), so the
unrestricted claim fails there.  A successful read resets the counter to
zero. -/
theorem c8_log_throttle :
    ∀ (e : CacheEntry) (codes : List Int) (c : Int) (bytes : List Nat),
      e.error_streak = 0 →
      codes.length + 1 < U32 →
      ((sampleStep (sampleSteps e (codes.map ReadOutcome.err)) (.err c)).2 = true ↔
        (codes.length + 1 = 1 ∨ (codes.length + 1) % 10 = 0)) ∧
      (sampleStep e (.ok bytes)).1.error_streak = 0 := by
  intro e codes c bytes h0 hlt
  have hU : 0 < U32 := by decide
  have hstreak :
      (sampleSteps e (codes.map ReadOutcome.err)).error_streak = codes.length := by
    rw [sampleSteps_err_streak codes e (h0 ▸ hU), h0, Nat.zero_add,
      Nat.mod_eq_of_lt (by omega)]
  constructor
  · have hnext :
        (sampleStep (sampleSteps e (codes.map ReadOutcome.err)) (.err c)).2 =
          ((codes.length + 1) % U32 == 1 ||
            ((codes.length + 1) % U32) % 10 == 0) := by
      simp [sampleStep, hstreak]
    rw [hnext, Nat.mod_eq_of_lt hlt]
    simp
  · simp [sampleStep]

/-- Witness for C8: with nine prior failures the tenth failure fires the
sink (10 is a multiple of 10). -/
theorem c8_witness :
    (⟨Ina226, 2, false, [0, 0], 0⟩ : CacheEntry).error_streak = 0 ∧
    (sampleStep (sampleSteps ⟨Ina226, 2, false, [0, 0], 0⟩
        ((List.replicate 9 (-5 : Int)).map ReadOutcome.err)) (.err (-5))).2 = true := by
  refine ⟨rfl, ?_⟩
  have h := (c8_log_throttle ⟨Ina226, 2, false, [0, 0], 0⟩
      (List.replicate 9 (-5 : Int)) (-5) [] rfl (by decide)).1
  rw [h]
  simp

/-- Counterexample for C8 as frozen: the claim quantifies over every
number `N` of consecutive failures, but the consecutive-failure counter is
a `uint32_t`.  On failure number `2 ^ 32` the counter has wrapped to `0`,
`0 % 10 == 0` holds, and the error sink fires, although `2 ^ 32` is
neither 1 nor a multiple of 10. -/
theorem c8_counterexample :
    (sampleStep (sampleSteps ⟨Ina226, 2, false, [0, 0], 0⟩
        ((List.replicate (U32 - 1) (-5 : Int)).map ReadOutcome.err))
      (.err (-5))).2 = true ∧
    ¬(U32 = 1 ∨ U32 % 10 = 0) := by
  constructor
  · have hstreak :
        (sampleSteps (⟨Ina226, 2, false, [0, 0], 0⟩ : CacheEntry)
            ((List.replicate (U32 - 1) (-5 : Int)).map ReadOutcome.err)).error_streak =
          U32 - 1 := by
      rw [sampleSteps_err_streak _ _ (by decide), List.length_replicate]
      show (0 + (U32 - 1)) % U32 = U32 - 1
      rw [Nat.zero_add, Nat.mod_eq_of_lt (by decide : U32 - 1 < U32)]
    have hwrap : (U32 - 1 + 1) % U32 = 0 := by
      rw [Nat.sub_add_cancel (by decide : 1 ≤ U32), Nat.mod_self]
    rw [sampleStep_err_snd, hstreak, hwrap]
    decide
  · decide

/-- C7: `register_driver` returns `-EALREADY` and leaves the table
unchanged (still exactly one entry of that type) when the type tag is
already registered; a new type appends in insertion order while the table
has fewer than 8 entries; with the table full it returns `-ENOSPC`
unchanged — in particular, registering 8 distinct types and then a 9th
distinct type yields eight successes (appended in order) and then
`-ENOSPC`. -/
theorem c7_register_driver_spec :
    ∀ (h : SensorHub) (d : DriverSpec),
      (((h.slots.map fun s => s.driver.ty).Nodup →
        (∃ s ∈ h.slots, s.driver.ty = d.ty) →
          h.register_driver d = (-EALREADY, h) ∧
          h.slots.countP (fun s => s.driver.ty == d.ty) = 1) ∧
      ((∀ s ∈ h.slots, s.driver.ty ≠ d.ty) → h.slots.length < kMaxDrivers →
        h.register_driver d = (0, ⟨h.slots ++ [mkSlot d]⟩)) ∧
      ((∀ s ∈ h.slots, s.driver.ty ≠ d.ty) → kMaxDrivers ≤ h.slots.length →
        h.register_driver d = (-ENOSPC, h))) ∧
      (∀ (l : List DriverSpec), l.length = kMaxDrivers →
        ((l ++ [d]).map DriverSpec.ty).Nodup →
        registerAll ⟨[]⟩ (l ++ [d]) =
          (⟨l.map mkSlot⟩, List.replicate kMaxDrivers 0 ++ [-ENOSPC])) := by
  intro h d
  refine ⟨⟨?_, ?_, ?_⟩, ?_⟩
  · intro hnd hex
    have hpos : ¬ find_slot h.slots d.ty < 0 := by
      rw [find_slot_neg_iff]
      push_neg
      obtain ⟨s, hs, hty⟩ := hex
      exact ⟨s, hs, hty⟩
    constructor
    · rw [SensorHub.register_driver, if_pos (by omega)]
    · have hmem : d.ty ∈ h.slots.map fun s => s.driver.ty := by
        obtain ⟨s, hs, hty⟩ := hex
        exact hty ▸ List.mem_map_of_mem _ hs
      have hcount := List.count_eq_one_of_mem hnd hmem
      rw [List.count, List.countP_map] at hcount
      exact hcount
  · intro hfresh hlt
    rw [register_driver_new h d hfresh, if_neg (by omega)]
  · intro hfresh hge
    rw [register_driver_new h d hfresh, if_pos hge]
  · intro l hlen hnd
    have hnodup_l : (l.map DriverSpec.ty).Nodup := by
      rw [List.map_append] at hnd
      exact (List.nodup_append.mp hnd).1
    have hnotin : d.ty ∉ l.map DriverSpec.ty := by
      rw [List.map_append] at hnd
      have hdisj := (List.nodup_append.mp hnd).2.2
      intro hcon
      exact hdisj hcon (by simp)
    have h8 := registerAll_fresh l ⟨[]⟩ (by intro d2 _ s hs; cases hs) hnodup_l
      (by simp [hlen])
    rw [registerAll_append, h8]
    have hfull : registerAll (⟨(⟨[]⟩ : SensorHub).slots ++ l.map mkSlot⟩ : SensorHub) [d] =
        ((⟨(⟨[]⟩ : SensorHub).slots ++ l.map mkSlot⟩ : SensorHub), [-ENOSPC]) := by
      have hfresh : ∀ s ∈ (⟨(⟨[]⟩ : SensorHub).slots ++ l.map mkSlot⟩ : SensorHub).slots,
          s.driver.ty ≠ d.ty := by
        intro s hs
        simp only [List.nil_append] at hs
        obtain ⟨d2, hd2, hsd⟩ := List.mem_map.mp hs
        intro hcon
        exact hnotin (hcon ▸ hsd ▸ List.mem_map_of_mem _ hd2)
      have hlen8 : kMaxDrivers ≤
          (⟨(⟨[]⟩ : SensorHub).slots ++ l.map mkSlot⟩ : SensorHub).slots.length := by
        simp [hlen]
      simp only [registerAll, register_driver_new _ d hfresh, if_pos hlen8]
    rw [hfull]
    simp [hlen]

theorem initAllGo_front_ready (pre : List Slot) :
    ∀ (rest : List Slot),
      (∀ s ∈ pre, s.initialized = true ∨ 0 ≤ s.driver.initRet s.initCalls) →
      initAllGo (pre ++ rest) =
        ((initAllGo rest).1, pre.map initSlot ++ (initAllGo rest).2) := by
  induction pre with
  | nil => intro rest _; simp
  | cons s pre' ih =>
    intro rest hpre
    have hs := hpre s (by simp)
    by_cases hinit : s.initialized = true
    · rw [List.cons_append, initAllGo, if_pos hinit,
        ih rest (fun x hx => hpre x (by simp [hx]))]
      simp [initSlot, hinit]
    · have hret : ¬ s.driver.initRet s.initCalls < 0 := by
        rcases hs with hs | hs
        · exact absurd hs hinit
        · omega
      rw [List.cons_append, initAllGo, if_neg hinit, if_neg hret,
        ih rest (fun x hx => hpre x (by simp [hx]))]
      simp only [List.map_cons, List.cons_append, initSlot, if_neg hinit]

theorem initAllGo_fail_head (sj : Slot) (post : List Slot)
    (hinit : sj.initialized = false)
    (hret : sj.driver.initRet sj.initCalls < 0) :
    initAllGo (sj :: post) =
      (sj.driver.initRet sj.initCalls,
        { sj with initCalls := sj.initCalls + 1 } :: post) := by
  rw [initAllGo, if_neg (by simp [hinit]), if_pos hret]

/-- C4: `init_all` over a slot table whose prefix initializes cleanly and
whose next slot's driver init fails returns that driver's error, leaves
the prefix initialized, leaves the failing slot and everything after it
untouched (the failing slot merely records the one failed driver call);
a second `init_all` leaves the prefix byte-for-byte unchanged (their
drivers' init is not called again: the call counters stay put) and
re-attempts the failing slot (its driver receives a second init call). -/
theorem c4_init_all_first_failure :
    ∀ (pre post : List Slot) (sj : Slot),
      (∀ s ∈ pre, s.initialized = true ∨ 0 ≤ s.driver.initRet s.initCalls) →
      sj.initialized = false →
      sj.driver.initRet sj.initCalls < 0 →
      (SensorHub.init_all ⟨pre ++ sj :: post⟩ =
        (sj.driver.initRet sj.initCalls,
          ⟨pre.map initSlot ++ { sj with initCalls := sj.initCalls + 1 } :: post⟩)) ∧
      (∀ s ∈ pre.map initSlot, s.initialized = true) ∧
      (∃ sj2 rest2,
        (SensorHub.init_all ⟨pre.map initSlot ++
            { sj with initCalls := sj.initCalls + 1 } :: post⟩).2.slots =
          pre.map initSlot ++ sj2 :: rest2 ∧
        sj2.driver = sj.driver ∧ sj2.initCalls = sj.initCalls + 2) := by
  intro pre post sj hpre hinit hret
  have hall : ∀ s ∈ pre.map initSlot, s.initialized = true := by
    intro s hs
    obtain ⟨x, hx, hxs⟩ := List.mem_map.mp hs
    subst hxs
    rcases hpre x hx with hx1 | _
    · simp [initSlot, hx1]
    · by_cases hx1 : x.initialized = true
      · simp [initSlot, hx1]
      · simp [initSlot, hx1]
  refine ⟨?_, hall, ?_⟩
  · rw [SensorHub.init_all, initAllGo_front_ready pre (sj :: post) hpre,
      initAllGo_fail_head sj post hinit hret]
  · have hskip := initAllGo_front_ready (pre.map initSlot)
      ({ sj with initCalls := sj.initCalls + 1 } :: post)
      (fun s hs => Or.inl (hall s hs))
    have hmap : (pre.map initSlot).map initSlot = pre.map initSlot := by
      apply List.map_congr_left ?_ |>.trans (List.map_id _)
      intro s hs
      simp [initSlot, hall s hs]
    by_cases hret2 : sj.driver.initRet (sj.initCalls + 1) < 0
    · refine ⟨{ sj with initCalls := sj.initCalls + 2 }, post, ?_, rfl, rfl⟩
      rw [SensorHub.init_all, hskip,
        initAllGo_fail_head _ post (by simp [hinit]) (by simpa using hret2)]
      simp [hmap]
    · refine ⟨{ sj with initialized := true, initCalls := sj.initCalls + 2 },
        (initAllGo post).2, ?_, rfl, rfl⟩
      rw [SensorHub.init_all, hskip, initAllGo, if_neg (by simp [hinit]),
        if_neg (by simpa using hret2)]
      simp [hmap]

/-- Witness for C4: two fresh slots; the first driver's init succeeds, the
second driver's first init fails with `-19`; `init_all` returns `-19`. -/
theorem c4_witness :
    (SensorHub.init_all ⟨[mkSlot ⟨0, 24, fun _ => 0, fun _ => 0⟩,
        mkSlot ⟨1, 16, fun _ => -19, fun _ => 0⟩]⟩).1 = -19 := by
  have h := (c4_init_all_first_failure [mkSlot ⟨0, 24, fun _ => 0, fun _ => 0⟩] []
      (mkSlot ⟨1, 16, fun _ => -19, fun _ => 0⟩)
      (by intro s hs; right; rw [List.mem_singleton] at hs; rw [hs]; decide)
      rfl (by decide)).1
  rw [show ([mkSlot ⟨0, 24, fun _ => 0, fun _ => 0⟩,
      mkSlot ⟨1, 16, fun _ => -19, fun _ => 0⟩] : List Slot) =
    [mkSlot ⟨0, 24, fun _ => 0, fun _ => 0⟩] ++
      [mkSlot ⟨1, 16, fun _ => -19, fun _ => 0⟩] from rfl, h]
  rfl

theorem readGo_skip (pre : List Slot) (ty : SensorType) (sz : Nat) :
    ∀ (rest : List Slot), (∀ p ∈ pre, p.driver.ty ≠ ty) →
      readGo (pre ++ rest) ty sz =
        ((readGo rest ty sz).1, pre ++ (readGo rest ty sz).2) := by
  induction pre with
  | nil => intro rest _; simp
  | cons p pre' ih =>
    intro rest hpre
    rw [List.cons_append, readGo, if_neg (hpre p (by simp)),
      ih rest (fun x hx => hpre x (by simp [hx]))]
    rfl

/-- C6: for a registered type with declared sample size S, `Hub.read`
returns `-ENOSPC` (BufferTooSmall) for every buffer size below S with the
hub unchanged; for size ≥ S it first lazily initializes the slot —
propagating a driver init error without invoking the driver's read (the
slot's read-call counter is unchanged) — and only then delegates to the
driver's read, so after a read that reaches the driver the slot is
initialized without any explicit init call. -/
theorem c6_hub_read_spec :
    ∀ (pre post : List Slot) (s : Slot) (sz : Nat),
      (∀ p ∈ pre, p.driver.ty ≠ s.driver.ty) →
      (sz < s.driver.sampleSize →
        SensorHub.read ⟨pre ++ s :: post⟩ s.driver.ty false sz =
          (-ENOSPC, ⟨pre ++ s :: post⟩)) ∧
      (s.driver.sampleSize ≤ sz →
        (s.initialized = true →
          SensorHub.read ⟨pre ++ s :: post⟩ s.driver.ty false sz =
            (s.driver.readRet s.readCalls,
              ⟨pre ++ { s with readCalls := s.readCalls + 1 } :: post⟩)) ∧
        (s.initialized = false → s.driver.initRet s.initCalls < 0 →
          SensorHub.read ⟨pre ++ s :: post⟩ s.driver.ty false sz =
            (s.driver.initRet s.initCalls,
              ⟨pre ++ { s with initCalls := s.initCalls + 1 } :: post⟩)) ∧
        (s.initialized = false → 0 ≤ s.driver.initRet s.initCalls →
          SensorHub.read ⟨pre ++ s :: post⟩ s.driver.ty false sz =
            (s.driver.readRet s.readCalls,
              ⟨pre ++
                { s with
                    initialized := true, initCalls := s.initCalls + 1,
                    readCalls := s.readCalls + 1 } :: post⟩))) := by
  intro pre post s sz hpre
  have hread : SensorHub.read ⟨pre ++ s :: post⟩ s.driver.ty false sz =
      ((readGo (s :: post) s.driver.ty sz).1,
        ⟨pre ++ (readGo (s :: post) s.driver.ty sz).2⟩) := by
    simp only [SensorHub.read, Bool.false_eq_true, if_false]
    rw [readGo_skip pre _ sz (s :: post) hpre]
  constructor
  · intro hsz
    rw [hread, readGo, if_pos rfl, if_pos hsz]
  · intro hsz
    have hnot : ¬ sz < s.driver.sampleSize := Nat.not_lt.mpr hsz
    refine ⟨?_, ?_, ?_⟩
    · intro hinit
      rw [hread, readGo, if_pos rfl, if_neg hnot, if_pos hinit]
    · intro hinit hret
      rw [hread, readGo, if_pos rfl, if_neg hnot, if_neg (by simp [hinit]),
        if_pos hret]
    · intro hinit hret
      rw [hread, readGo, if_pos rfl, if_neg hnot, if_neg (by simp [hinit]),
        if_neg (by omega)]

/-- Witness for C6: a registered type with sample size 4 rejects a 3-byte
buffer with `-ENOSPC`. -/
theorem c6_witness :
    SensorHub.read ⟨[mkSlot ⟨2, 4, fun _ => 0, fun _ => 0⟩]⟩ 2 false 3 =
      (-ENOSPC, ⟨[mkSlot ⟨2, 4, fun _ => 0, fun _ => 0⟩]⟩) := by
  have h := (c6_hub_read_spec [] [] (mkSlot ⟨2, 4, fun _ => 0, fun _ => 0⟩) 3
      (by intro p hp; cases hp)).1 (by decide)
  exact h

theorem persist_disabled (cache : List CacheEntry) (st : PersistState)
    (env : PersistEnv) (h : st.storage_persist_enabled = false) :
    persist_snapshot_to_storage cache st env = (st, []) := by
  rw [persist_snapshot_to_storage, if_pos h]

theorem persist_path_const (cache : List CacheEntry) (st : PersistState)
    (env : PersistEnv) :
    (persist_snapshot_to_storage cache st env).1.persist_file_path =
      st.persist_file_path := by
  simp only [persist_snapshot_to_storage]
  split_ifs <;> rfl

theorem persist_ops_shape (cache : List CacheEntry) (st : PersistState)
    (env : PersistEnv) :
    ∀ op ∈ (persist_snapshot_to_storage cache st env).2,
      op = ⟨st.persist_file_path, kCsvHeader, false⟩ ∨
      op = ⟨st.persist_file_path,
        renderRow (beijingTimeString env.rtc) (extractSamples cache).1
          (extractSamples cache).2, true⟩ := by
  intro op hop
  simp only [persist_snapshot_to_storage] at hop
  split_ifs at hop <;> simp_all

theorem persist_hw_true (cache : List CacheEntry) (st : PersistState)
    (env : PersistEnv) (h : st.storage_header_written = true) :
    (persist_snapshot_to_storage cache st env).1.storage_header_written = true ∧
    ∀ op ∈ (persist_snapshot_to_storage cache st env).2, op.append = true := by
  simp only [persist_snapshot_to_storage]
  split_ifs <;> simp_all

theorem persist_hw_false (cache : List CacheEntry) (st : PersistState)
    (env : PersistEnv) (h : st.storage_header_written = false) :
    ((persist_snapshot_to_storage cache st env).2 = [] ∧
      (persist_snapshot_to_storage cache st env).1.storage_header_written = false) ∨
    ((persist_snapshot_to_storage cache st env).2.head? =
        some ⟨st.persist_file_path, kCsvHeader, false⟩ ∧
      (∀ op ∈ (persist_snapshot_to_storage cache st env).2.tail, op.append = true) ∧
      ((persist_snapshot_to_storage cache st env).1.storage_header_written = true ∨
        (persist_snapshot_to_storage cache st env).1.storage_persist_enabled =
          false)) := by
  simp only [persist_snapshot_to_storage]
  split_ifs <;> simp_all

theorem serviceRound_cache (s : SvcState) (env : RoundEnv) :
    (serviceRound s env).1.cache = sampleRound s.cache env.reads := rfl

theorem serviceRound_cases (s : SvcState) (env : RoundEnv) :
    ((serviceRound s env).2 = [] ∧ (serviceRound s env).1.persist = s.persist) ∨
    ((serviceRound s env).2 =
        (persist_snapshot_to_storage (sampleRound s.cache env.reads) s.persist
          env.penv).2 ∧
      (serviceRound s env).1.persist =
        (persist_snapshot_to_storage (sampleRound s.cache env.reads) s.persist
          env.penv).1) := by
  simp only [serviceRound, maybe_persist_snapshot]
  split_ifs
  · exact Or.inl ⟨rfl, rfl⟩
  · exact Or.inr ⟨rfl, rfl⟩

theorem serviceRound_path (s : SvcState) (env : RoundEnv) :
    (serviceRound s env).1.persist.persist_file_path =
      s.persist.persist_file_path := by
  rcases serviceRound_cases s env with ⟨_, hst⟩ | ⟨_, hst⟩
  · rw [hst]
  · rw [hst, persist_path_const]

theorem traceOps_disabled (envs : List RoundEnv) :
    ∀ (s : SvcState), s.persist.storage_persist_enabled = false →
      traceOps s envs = [] := by
  induction envs with
  | nil => intro s _; rfl
  | cons env rest ih =>
    intro s h
    rw [traceOps]
    rcases serviceRound_cases s env with ⟨hops, hst⟩ | ⟨hops, hst⟩
    · rw [hops, ih _ (by rw [hst]; exact h)]
      rfl
    · have hd := persist_disabled (sampleRound s.cache env.reads) s.persist env.penv h
      rw [hops, hd, ih _ (by rw [hst, hd]; exact h)]
      rfl

theorem serviceTrace_disabled (envs : List RoundEnv) :
    ∀ (s : SvcState), s.persist.storage_persist_enabled = false →
      ∀ p ∈ serviceTrace s envs,
        p.1.persist.storage_persist_enabled = false ∧ p.2 = [] := by
  induction envs with
  | nil => intro s _ p hp; cases hp
  | cons env rest ih =>
    intro s h p hp
    rw [serviceTrace] at hp
    have hstep : (serviceRound s env).1.persist.storage_persist_enabled = false ∧
        (serviceRound s env).2 = [] := by
      rcases serviceRound_cases s env with ⟨hops, hst⟩ | ⟨hops, hst⟩
      · exact ⟨by rw [hst]; exact h, hops⟩
      · have hd := persist_disabled (sampleRound s.cache env.reads) s.persist
          env.penv h
        exact ⟨by rw [hst, hd]; exact h, by rw [hops, hd]⟩
    rcases List.mem_cons.mp hp with hp | hp
    · rw [hp]
      exact ⟨hstep.1, hstep.2⟩
    · exact ih _ hstep.1 p hp

theorem traceOps_hw_true (envs : List RoundEnv) :
    ∀ (s : SvcState), s.persist.storage_header_written = true →
      ∀ op ∈ traceOps s envs, op.append = true := by
  induction envs with
  | nil => intro s _ op hop; cases hop
  | cons env rest ih =>
    intro s h op hop
    rw [traceOps] at hop
    rcases List.mem_append.mp hop with hop | hop
    · rcases serviceRound_cases s env with ⟨hops, _⟩ | ⟨hops, _⟩
      · rw [hops] at hop; cases hop
      · rw [hops] at hop
        exact (persist_hw_true _ _ _ h).2 op hop
    · rcases serviceRound_cases s env with ⟨_, hst⟩ | ⟨_, hst⟩
      · exact ih _ (by rw [hst]; exact h) op hop
      · exact ih _ (by rw [hst]; exact (persist_hw_true _ _ _ h).1) op hop

theorem traceOps_shape (envs : List RoundEnv) :
    ∀ (s : SvcState), ∀ op ∈ traceOps s envs,
      op = ⟨s.persist.persist_file_path, kCsvHeader, false⟩ ∨
      (op.path = s.persist.persist_file_path ∧ op.append = true ∧
        ∃ t ina aht, op.data = renderRow t ina aht) := by
  induction envs with
  | nil => intro s op hop; cases hop
  | cons env rest ih =>
    intro s op hop
    rw [traceOps] at hop
    rcases List.mem_append.mp hop with hop | hop
    · rcases serviceRound_cases s env with ⟨hops, _⟩ | ⟨hops, _⟩
      · rw [hops] at hop; cases hop
      · rw [hops] at hop
        rcases persist_ops_shape _ _ _ op hop with hsh | hsh
        · exact Or.inl hsh
        · exact Or.inr ⟨by rw [hsh], by rw [hsh], _, _, _, by rw [hsh]⟩
    · have hres := ih _ op hop
      rw [serviceRound_path s env] at hres
      exact hres

theorem traceOps_header_once (envs : List RoundEnv) :
    ∀ (s : SvcState), s.persist.storage_header_written = false →
      traceOps s envs = [] ∨
      ((traceOps s envs).head? =
          some ⟨s.persist.persist_file_path, kCsvHeader, false⟩ ∧
        ((traceOps s envs).filter fun op => op.append == false).length = 1) := by
  induction envs with
  | nil => intro s _; exact Or.inl rfl
  | cons env rest ih =>
    intro s h
    rw [traceOps]
    rcases serviceRound_cases s env with ⟨hops, hst⟩ | ⟨hops, hst⟩
    · rw [hops, List.nil_append]
      have hres := ih _ (by rw [hst]; exact h)
      rwa [serviceRound_path] at hres
    · rcases persist_hw_false (sampleRound s.cache env.reads) s.persist env.penv h
        with ⟨hemp, hw'⟩ | ⟨hhd, htl, hlatch⟩
      · rw [hops, hemp, List.nil_append]
        have hres := ih _ (by rw [hst]; exact hw')
        rwa [serviceRound_path] at hres
      · right
        have hrest : ∀ op ∈ traceOps (serviceRound s env).1 rest,
            op.append = true := by
          rcases hlatch with hl | hl
          · exact traceOps_hw_true rest _ (by rw [hst]; exact hl)
          · intro op hop
            rw [traceOps_disabled rest _ (by rw [hst]; exact hl)] at hop
            cases hop
        obtain ⟨ops0, tl, hops0⟩ :
            ∃ a l, (persist_snapshot_to_storage (sampleRound s.cache env.reads)
                s.persist env.penv).2 = a :: l := by
          cases hcase : (persist_snapshot_to_storage (sampleRound s.cache env.reads)
              s.persist env.penv).2 with
          | nil => rw [hcase] at hhd; cases hhd
          | cons a l => exact ⟨a, l, rfl⟩
        have hop0 : ops0 = ⟨s.persist.persist_file_path, kCsvHeader, false⟩ := by
          rw [hops0] at hhd
          simpa using hhd
        have htail : ∀ op ∈ tl, op.append = true := by
          intro op hop
          exact htl op (by rw [hops0]; exact hop)
        rw [hops, hops0, hop0]
        constructor
        · rfl
        · rw [List.cons_append, List.filter_cons]
          have htailf : (tl ++ traceOps (serviceRound s env).1 rest).filter
              (fun op => op.append == false) = [] := by
            rw [List.filter_eq_nil_iff]
            intro op hop
            rcases List.mem_append.mp hop with hop | hop
            · simp [htail op hop]
            · simp [hrest op hop]
          simp [htailf]
          exact ⟨htail, hrest⟩

/-- C2: in every run started with the header not yet written, every
storage write the service attempts is either the constant CSV header
(written with truncate) or a data row `time,bus_mv,current_ma,power_mw,
temp_mc,rh_permille\n` (appended) whose absent fields are the sentinel
`-1` (`renderRow`); and if any write happens at all, the first one is the
header and the header is written exactly once for the run's file. -/
theorem c2_csv_row_layout :
    ∀ (s0 : SvcState) (envs : List RoundEnv),
      s0.persist.storage_header_written = false →
      (∀ op ∈ traceOps s0 envs,
        op = ⟨s0.persist.persist_file_path, kCsvHeader, false⟩ ∨
        (op.path = s0.persist.persist_file_path ∧ op.append = true ∧
          ∃ t ina aht, op.data = renderRow t ina aht)) ∧
      (traceOps s0 envs ≠ [] →
        (traceOps s0 envs).head? =
          some ⟨s0.persist.persist_file_path, kCsvHeader, false⟩ ∧
        ((traceOps s0 envs).filter fun op => op.append == false).length = 1) := by
  intro s0 envs h
  refine ⟨traceOps_shape envs s0, ?_⟩
  intro hne
  rcases traceOps_header_once envs s0 h with hemp | hres
  · exact absurd hemp hne
  · exact hres

/-- Witness for C2: a one-round run whose RTC read fails writes the header
and nothing else: one truncating write, and it is the head of the trace. -/
theorem c2_witness :
    ((traceOps
        ⟨[⟨Ina226, 24, true, List.replicate 24 1, 0⟩],
          ⟨true, false, 0, "/SD:/t.csv"⟩, 0, 0⟩
        [⟨[], 5, ⟨-1, ⟨0, 0, 1, 0, 0, 0⟩, 0, 0⟩⟩]).filter
      fun op => op.append == false).length = 1 :=
  ((c2_csv_row_layout
      ⟨[⟨Ina226, 24, true, List.replicate 24 1, 0⟩],
        ⟨true, false, 0, "/SD:/t.csv"⟩, 0, 0⟩
      [⟨[], 5, ⟨-1, ⟨0, 0, 1, 0, 0, 0⟩, 0, 0⟩⟩] rfl).2 (by decide)).2

/-- C3: any storage write failure (header or row) during a persistence
round latches `storage_persist_enabled_` to false; once false, a
persistence round does nothing — attempts no write and changes nothing —
so across the remainder of the run no write is attempted and no later
event re-enables the latch; meanwhile each worker round still samples
into the cache exactly as before (the cache result does not depend on the
persistence state), and `get_latest` is unaffected; a fresh `run()`
resets the latch to enabled. -/
theorem c3_persist_failure_latch :
    (∀ (cache : List CacheEntry) (st : PersistState) (env : PersistEnv),
      st.storage_header_written = false →
      (persist_snapshot_to_storage cache st env).2 ≠ [] →
      env.headerRet < 0 →
      (persist_snapshot_to_storage cache st env).1.storage_persist_enabled =
        false) ∧
    (∀ (cache : List CacheEntry) (st : PersistState) (env : PersistEnv),
      (∃ op ∈ (persist_snapshot_to_storage cache st env).2, op.append = true) →
      env.rowRet < 0 →
      (persist_snapshot_to_storage cache st env).1.storage_persist_enabled =
        false) ∧
    (∀ (cache : List CacheEntry) (st : PersistState) (env : PersistEnv),
      st.storage_persist_enabled = false →
      persist_snapshot_to_storage cache st env = (st, [])) ∧
    (∀ (s0 : SvcState) (envs : List RoundEnv),
      s0.persist.storage_persist_enabled = false →
      ∀ p ∈ serviceTrace s0 envs,
        p.1.persist.storage_persist_enabled = false ∧ p.2 = []) ∧
    (∀ (s : SvcState) (env : RoundEnv),
      (serviceRound s env).1.cache = sampleRound s.cache env.reads) ∧
    (∀ (s : SvcState) (env : RoundEnv) (ty : SensorType) (out : List Nat),
      get_latest (serviceRound s env).1.cache ty false out =
        get_latest (sampleRound s.cache env.reads) ty false out) ∧
    (∀ (rtcRet : Int) (t : RtcTime),
      (run_persist_reset rtcRet t).storage_persist_enabled = true) := by
  refine ⟨?_, ?_, persist_disabled,
    fun s0 envs h => serviceTrace_disabled envs s0 h, serviceRound_cache,
    ?_, ?_⟩
  · intro cache st env hhw hne hret
    simp only [persist_snapshot_to_storage] at hne ⊢
    by_cases h1 : st.storage_persist_enabled = false
    · rw [if_pos h1] at hne; exact absurd rfl hne
    · rw [if_neg h1] at hne ⊢
      by_cases h2 : (extractSamples cache).1 = none ∧ (extractSamples cache).2 = none
      · rw [if_pos h2] at hne; exact absurd rfl hne
      · rw [if_neg h2] at hne ⊢
        by_cases h3 : st.persist_file_path = ""
        · rw [if_pos h3]
        · rw [if_neg h3, if_pos ⟨hhw, hret⟩]
  · intro cache st env hex hret
    obtain ⟨op, hop, happ⟩ := hex
    have hho : ∀ (o : WriteOp),
        o ∈ (if st.storage_header_written = true then ([] : List WriteOp)
          else [⟨st.persist_file_path, kCsvHeader, false⟩]) →
        o.append = false := by
      intro o ho
      split at ho
      · cases ho
      · rw [List.mem_singleton] at ho
        rw [ho]
    simp only [persist_snapshot_to_storage] at hop ⊢
    by_cases h1 : st.storage_persist_enabled = false
    · rw [if_pos h1] at hop; cases hop
    · rw [if_neg h1] at hop ⊢
      by_cases h2 : (extractSamples cache).1 = none ∧ (extractSamples cache).2 = none
      · rw [if_pos h2] at hop; cases hop
      · rw [if_neg h2] at hop ⊢
        by_cases h3 : st.persist_file_path = ""
        · rw [if_pos h3] at hop; cases hop
        · rw [if_neg h3] at hop ⊢
          by_cases h4 : st.storage_header_written = false ∧ env.headerRet < 0
          · rw [if_pos h4] at hop
            exact absurd happ (by rw [hho op hop]; decide)
          · rw [if_neg h4] at hop ⊢
            by_cases h5 : env.rtcRet < 0
            · rw [if_pos h5] at hop
              exact absurd happ (by rw [hho op hop]; decide)
            · rw [if_neg h5] at hop ⊢
              by_cases h6 : (renderRow (beijingTimeString env.rtc)
                    (extractSamples cache).1 (extractSamples cache).2).length = 0 ∨
                  200 ≤ (renderRow (beijingTimeString env.rtc)
                    (extractSamples cache).1 (extractSamples cache).2).length
              · rw [if_pos h6] at hop
                exact absurd happ (by rw [hho op hop]; decide)
              · rw [if_neg h6, if_pos hret]
  · intro s env ty out
    rw [serviceRound_cache]
  · intro rtcRet t
    simp only [run_persist_reset]
    split_ifs <;> rfl

/-- Witness for C3: a forced header-write failure (-5) in an otherwise
healthy round leaves persistence disabled. -/
theorem c3_witness :
    (persist_snapshot_to_storage [⟨Ina226, 24, true, List.replicate 24 2, 0⟩]
        ⟨true, false, 0, "/SD:/u.csv"⟩
        ⟨0, ⟨0, 0, 1, 0, 0, 0⟩, -5, 0⟩).1.storage_persist_enabled = false :=
  c3_persist_failure_latch.1 _ _ _ rfl (by decide) (by decide)

/-- Counterexample for C9 as frozen: on a persistence deadline with
persistence enabled but no cached sample valid yet, the source returns
before any storage write — zero rows are appended, not exactly one. -/
theorem c9_counterexample :
    (⟨true, false, 0, "/SD:/v.csv"⟩ : PersistState).storage_persist_enabled =
      true ∧
    ¬(((maybe_persist_snapshot [⟨Ina226, 24, false, List.replicate 24 0, 0⟩]
          ⟨true, false, 0, "/SD:/v.csv"⟩ 0 5
          ⟨0, ⟨0, 0, 1, 0, 0, 0⟩, 0, 0⟩).2.filter fun op => op.append).length =
        1) := by
  decide

/-- C9 (amended): on a persistence deadline the next-persist deadline
advances to `now + kPersistPeriodMs` regardless of the attempt's outcome;
while persistence is enabled at most one row is appended, and exactly one
row write is attempted iff some known type has a valid cached sample, the
file path is resolved, the header is already written or its write
succeeds, the RTC read succeeds, and the rendered row passes the
`snprintf` length check; every appended row carries the rendered CSV line,
whose absent-type fields are the sentinel `-1`. -/
theorem c9_persist_round :
    ∀ (cache : List CacheEntry) (st : PersistState) (next now : Int)
      (env : PersistEnv),
      (next ≤ now →
        (maybe_persist_snapshot cache st next now env).1.2 =
          now + kPersistPeriodMs) ∧
      (next ≤ now → st.storage_persist_enabled = true →
        (((maybe_persist_snapshot cache st next now env).2.filter
            fun op => op.append).length ≤ 1 ∧
        ((((maybe_persist_snapshot cache st next now env).2.filter
            fun op => op.append).length = 1) ↔
          (¬((extractSamples cache).1 = none ∧ (extractSamples cache).2 = none) ∧
            st.persist_file_path ≠ "" ∧
            (st.storage_header_written = true ∨ 0 ≤ env.headerRet) ∧
            0 ≤ env.rtcRet ∧
            ¬((renderRow (beijingTimeString env.rtc) (extractSamples cache).1
                  (extractSamples cache).2).length = 0 ∨
              200 ≤ (renderRow (beijingTimeString env.rtc)
                  (extractSamples cache).1 (extractSamples cache).2).length))) ∧
        (∀ op ∈ (maybe_persist_snapshot cache st next now env).2.filter
            fun op => op.append,
          op.data = renderRow (beijingTimeString env.rtc)
            (extractSamples cache).1 (extractSamples cache).2))) := by
  intro cache st next now env
  have hfil : ((if st.storage_header_written = true then ([] : List WriteOp)
      else [⟨st.persist_file_path, kCsvHeader, false⟩]).filter
        fun op => op.append) = [] := by
    split <;> rfl
  constructor
  · intro hle
    simp only [maybe_persist_snapshot, if_neg (not_lt.mpr hle)]
  · intro hle hen
    simp only [maybe_persist_snapshot, if_neg (not_lt.mpr hle),
      persist_snapshot_to_storage, if_neg (by rw [hen]; decide :
        ¬ st.storage_persist_enabled = false)]
    by_cases h2 : (extractSamples cache).1 = none ∧ (extractSamples cache).2 = none
    · rw [if_pos h2]
      refine ⟨by simp, ?_, by simp⟩
      simp [h2]
    · rw [if_neg h2]
      by_cases h3 : st.persist_file_path = ""
      · rw [if_pos h3]
        refine ⟨by simp, ?_, by simp⟩
        simp [h2, h3]
      · rw [if_neg h3]
        by_cases h4 : st.storage_header_written = false ∧ env.headerRet < 0
        · rw [if_pos h4]
          refine ⟨by simp [h4.1], ?_, by simp [h4.1]⟩
          simp [h4.1, not_le.mpr h4.2]
        · rw [if_neg h4]
          by_cases h5 : env.rtcRet < 0
          · rw [if_pos h5]
            refine ⟨by simp [hfil], ?_, by simp [hfil]⟩
            simp [hfil, not_le.mpr h5]
          · rw [if_neg h5]
            by_cases h6 : (renderRow (beijingTimeString env.rtc)
                  (extractSamples cache).1 (extractSamples cache).2).length = 0 ∨
                200 ≤ (renderRow (beijingTimeString env.rtc)
                  (extractSamples cache).1 (extractSamples cache).2).length
            · rw [if_pos h6]
              refine ⟨by simp [hfil], ?_, by simp [hfil]⟩
              simp [hfil, h6]
            · rw [if_neg h6]
              have h4' : st.storage_header_written = true ∨ 0 ≤ env.headerRet := by
                by_cases hhw : st.storage_header_written = true
                · exact Or.inl hhw
                · right
                  by_contra hcon
                  exact h4 ⟨by simp at hhw; exact hhw, by omega⟩
              have hones : ∀ (stX : PersistState),
                  (((stX, (if st.storage_header_written = true
                      then ([] : List WriteOp)
                      else [⟨st.persist_file_path, kCsvHeader, false⟩]) ++
                    [⟨st.persist_file_path,
                      renderRow (beijingTimeString env.rtc)
                        (extractSamples cache).1 (extractSamples cache).2,
                      true⟩]) : PersistState × List WriteOp).2.filter
                    fun op => op.append) =
                  [⟨st.persist_file_path,
                    renderRow (beijingTimeString env.rtc)
                      (extractSamples cache).1 (extractSamples cache).2, true⟩] := by
                intro stX
                rw [List.filter_append, hfil]
                rfl
              by_cases h7 : env.rowRet < 0
              · rw [if_pos h7, hones]
                refine ⟨by simp, ?_, by simp⟩
                simp only [List.length_singleton]
                exact iff_of_true trivial ⟨h2, h3, h4', not_lt.mp h5, h6⟩
              · rw [if_neg h7, hones]
                refine ⟨by simp, ?_, by simp⟩
                simp only [List.length_singleton]
                exact iff_of_true trivial ⟨h2, h3, h4', not_lt.mp h5, h6⟩

set_option maxRecDepth 8192 in
/-- Witness for C9: an all-healthy round with one valid INA226 sample
appends exactly one row. -/
theorem c9_witness :
    ((maybe_persist_snapshot [⟨Ina226, 24, true, List.replicate 24 3, 0⟩]
        ⟨true, true, 0, "/SD:/w.csv"⟩ 0 5
        ⟨0, ⟨126, 0, 1, 0, 0, 0⟩, 0, 0⟩).2.filter
      fun op => op.append).length = 1 :=
  (((c9_persist_round [⟨Ina226, 24, true, List.replicate 24 3, 0⟩]
      ⟨true, true, 0, "/SD:/w.csv"⟩ 0 5
      ⟨0, ⟨126, 0, 1, 0, 0, 0⟩, 0, 0⟩).2 (by decide) rfl).2.1).mpr (by decide)

/-- Witness for C7: the already-registered branch at a one-slot hub. -/
theorem c7_witness :
    (SensorHub.register_driver ⟨[mkSlot ⟨3, 4, fun _ => 0, fun _ => 0⟩]⟩
        ⟨3, 8, fun _ => 0, fun _ => 0⟩) =
      (-EALREADY, ⟨[mkSlot ⟨3, 4, fun _ => 0, fun _ => 0⟩]⟩) := by
  have h := ((c7_register_driver_spec ⟨[mkSlot ⟨3, 4, fun _ => 0, fun _ => 0⟩]⟩
      ⟨3, 8, fun _ => 0, fun _ => 0⟩).1.1 (by simp)
      ⟨mkSlot ⟨3, 4, fun _ => 0, fun _ => 0⟩, by simp, rfl⟩).1
  exact h

end SkyBoard
